import Mathlib

/-!
Verification development for the rule-based trading signal engine of
`trading_strategy.py` (classes `TechnicalAnalysis` and `TradingStrategy`).

Modelling conventions:

* Prices are modelled as rationals (`ℚ`).  All indicator arithmetic in the
  source is exact field arithmetic except for the square root inside
  `np.std`; that square root is the single non-rational operation of the
  module.  It enters the engine only through `calculate_bollinger_bands`
  and is abstracted as an explicit parameter `rsqrt : ℚ → ℚ`; every
  engine-level theorem below is proved for an arbitrary `rsqrt`.  For the
  band-ordering property, `calculate_bollinger_bandsR` renders the same
  source function over `ℝ` with the exact `Real.sqrt`.
* Python list slicing `xs[-k:]` is `takeLastPy` (note `xs[-0:]` is the
  whole list), `np.diff` is `pyDiff`, `np.mean` of a non-empty list is
  `qmean`, and `np.std` (population standard deviation, ddof = 0) is the
  square root of `qvariance`.
* `np.mean` of an empty slice returns NaN (with a RuntimeWarning) rather
  than raising, and `prices[0]` on an empty list raises IndexError; both
  are non-values of the rational model, so the indicator functions that
  can hit them (`calculate_rsi`, `calculate_sma`, `calculate_ema`,
  `calculate_macd`) return `Option`, with `none` marking the NaN /
  exception outcome.  Each such corner needs `period = 0` or an empty
  series and is unreachable from `analyze_symbol`'s calls (periods 14,
  20, 50, 12/26/9 on a series of length ≥ 5); lemmas below prove this.
* In the reason f-strings of `analyze_symbol`, dividing by zero raises
  ZeroDivisionError when the denominator is a Python float (the
  `prices[-1]` fallback of SMA-20 / Bollinger, taken exactly when the
  series is shorter than 20), while a numpy float64 denominator (the
  `np.mean` branch, series length ≥ 20) yields inf/nan without raising.
  `divToRatio` models this: `Except.error ()` is an uncaught
  ZeroDivisionError, `Except.ok none` an inf/nan ratio in the text.
* The price-history fetch (`get_price_history_from_api`) is external I/O;
  `analyze_symbol` here takes the fetched series directly, per the spec's
  `price_history_provider` contract.  The straight-line locals of the
  source method are split into named helpers (`subSignalPairs`, `fuse`,
  `fusedOf`, `reasonOf`) that `analyze_symbol` calls; each helper is a
  verbatim rendering of the corresponding source lines.
-/

/-- The `Signal` enum of the source: BUY, SELL or HOLD. -/
inductive Signal where
  | BUY
  | SELL
  | HOLD
deriving DecidableEq, Repr

/-- Structured rendering of the `reason` string of a `TradingSignal`.
The source builds one of four f-string templates; the numeric components
are carried here as data.  A ratio recorded as `none` denotes an inf/nan
value printed into the text (numpy division by zero). -/
inductive Reason where
  | insufficientHistory
  | buyReason (rsi : ℚ) (priceVsSma20 : Option ℚ) (bbPosition : Option ℚ)
  | sellReason (rsi : ℚ) (priceVsSma20 : Option ℚ) (bbPosition : Option ℚ)
  | holdReason (rsi : ℚ) (priceVsSma20 : Option ℚ)
deriving DecidableEq, Repr

/-- The `TradingSignal` dataclass of the source. -/
structure TradingSignal where
  signal : Signal
  confidence : ℚ
  reason : Reason
  target_price : Option ℚ := none
  stop_loss : Option ℚ := none
deriving DecidableEq, Repr

deriving instance DecidableEq for Except

/-- Python slice `xs[-k:]`: the last `k` elements, except that `xs[-0:]`
is the whole list. -/
def takeLastPy (k : ℕ) (xs : List α) : List α :=
  if k = 0 then xs else xs.drop (xs.length - k)

/-- Successive differences, `np.diff`: element `i` is `xs[i+1] - xs[i]`. -/
def pyDiff (xs : List ℚ) : List ℚ :=
  List.zipWith (fun a b => a - b) (xs.drop 1) xs

/-- Arithmetic mean of a list, `np.mean`, meaningful for non-empty lists
(the empty case is guarded at every call site). -/
def qmean (xs : List ℚ) : ℚ :=
  xs.sum / xs.length

/-- Population variance (`np.std` squared, ddof = 0). -/
def qvariance (xs : List ℚ) : ℚ :=
  qmean (xs.map (fun x => (x - qmean xs) ^ 2))

/-- The gains array of `calculate_rsi`: `np.where(deltas > 0, deltas, 0)`. -/
def gainsOf (prices : List ℚ) : List ℚ :=
  (pyDiff prices).map (fun d => if 0 < d then d else 0)

/-- The losses array of `calculate_rsi`: `np.where(deltas < 0, -deltas, 0)`. -/
def lossesOf (prices : List ℚ) : List ℚ :=
  (pyDiff prices).map (fun d => if d < 0 then -d else 0)

/-- `TechnicalAnalysis.calculate_rsi`.  Fewer than `period + 1` points
yield the neutral 50.0.  Otherwise the last `period` gains and losses are
averaged; a zero average loss returns 100.0, else
`100 - 100 / (1 + avg_gain / avg_loss)`.  `none` models the NaN result of
`np.mean` on an empty slice (reachable only when `period = 0` and the
series has exactly one point). -/
def calculate_rsi (prices : List ℚ) (period : ℕ) : Option ℚ :=
  if prices.length < period + 1 then some 50
  else
    let gtail := takeLastPy period (gainsOf prices)
    let ltail := takeLastPy period (lossesOf prices)
    if ltail.isEmpty then none
    else
      let avg_gain := qmean gtail
      let avg_loss := qmean ltail
      if avg_loss = 0 then some 100
      else some (100 - 100 / (1 + avg_gain / avg_loss))

/-- `TechnicalAnalysis.calculate_sma`.  Fewer than `period` points fall
back to `prices[-1] if prices else 0`; otherwise the mean of the last
`period` points.  `none` models the NaN of `np.mean` on an empty slice
(reachable only when `period = 0` and the series is empty). -/
def calculate_sma (prices : List ℚ) (period : ℕ) : Option ℚ :=
  if prices.length < period then some (prices.getLastD 0)
  else if prices.isEmpty then none
  else some (qmean (takeLastPy period prices))

/-- `TechnicalAnalysis.calculate_ema`.  Fewer than `period` points fall
back to `prices[-1] if prices else 0`; otherwise the EMA is seeded with
the first price and folded over the rest with factor `2 / (period + 1)`.
`none` models the IndexError of `prices[0]` on an empty list (reachable
only when `period = 0`). -/
def calculate_ema (prices : List ℚ) (period : ℕ) : Option ℚ :=
  if prices.length < period then some (prices.getLastD 0)
  else
    match prices with
    | [] => none
    | p :: rest =>
      let multiplier : ℚ := 2 / (period + 1)
      some (rest.foldl (fun ema price => price * multiplier + ema * (1 - multiplier)) p)

/-- `TechnicalAnalysis.calculate_bollinger_bands`, with `np.std`'s square
root abstracted as the parameter `rsqrt` applied to the population
variance of the window.  Fewer than `period` points collapse all three
bands to `prices[-1] if prices else 0`. -/
def calculate_bollinger_bands (rsqrt : ℚ → ℚ) (prices : List ℚ) (period : ℕ)
    (std_dev : ℚ) : ℚ × ℚ × ℚ :=
  if prices.length < period then
    let current_price := prices.getLastD 0
    (current_price, current_price, current_price)
  else
    let window := takeLastPy period prices
    let sma := qmean window
    let std := rsqrt (qvariance window)
    (sma + std * std_dev, sma, sma - std * std_dev)

/-- `TechnicalAnalysis.calculate_macd`.  Fewer than `slow_period` points
return `(0, 0, 0)`; otherwise the MACD line is `EMA(fast) - EMA(slow)`
over the whole series, the signal line is the MACD line itself when the
series is shorter than `slow_period + signal_period` and `0.9` times it
otherwise, and the histogram is their difference. -/
def calculate_macd (prices : List ℚ) (fast_period slow_period signal_period : ℕ) :
    Option (ℚ × ℚ × ℚ) :=
  if prices.length < slow_period then some (0, 0, 0)
  else
    match calculate_ema prices fast_period, calculate_ema prices slow_period with
    | some ema_fast, some ema_slow =>
      let macd_line := ema_fast - ema_slow
      let signal_line :=
        if prices.length < slow_period + signal_period then macd_line
        else macd_line * 0.9
      some (macd_line, signal_line, macd_line - signal_line)
    | _, _ => none

/-- Mean of a list of reals (`np.mean`), for the real-valued rendering of
the Bollinger computation. -/
noncomputable def rmean (xs : List ℝ) : ℝ :=
  xs.sum / xs.length

/-- `np.std` over the reals: the exact square root of the population
variance (ddof = 0). -/
noncomputable def np_stdR (xs : List ℝ) : ℝ :=
  Real.sqrt (rmean (xs.map (fun x => (x - rmean xs) ^ 2)))

/-- `TechnicalAnalysis.calculate_bollinger_bands` rendered over `ℝ` with
the exact `Real.sqrt` inside `np.std`; same source lines as
`calculate_bollinger_bands`. -/
noncomputable def calculate_bollinger_bandsR (prices : List ℝ) (period : ℕ)
    (std_dev : ℝ) : ℝ × ℝ × ℝ :=
  if prices.length < period then
    let current_price := prices.getLastD 0
    (current_price, current_price, current_price)
  else
    let window := takeLastPy period prices
    let sma := rmean window
    let std := np_stdR window
    (sma + std * std_dev, sma, sma - std * std_dev)

/-- RSI sub-signal of `analyze_symbol`: RSI < 30 is a BUY vote at 0.7,
RSI > 70 a SELL vote at 0.7, otherwise HOLD at 0.3. -/
def rsiSignal (rsi : ℚ) : Signal × ℚ :=
  if rsi < 30 then (Signal.BUY, 0.7)
  else if 70 < rsi then (Signal.SELL, 0.7)
  else (Signal.HOLD, 0.3)

/-- Moving-average sub-signal of `analyze_symbol`. -/
def maSignal (sma_20 sma_50 current_price : ℚ) : Signal × ℚ :=
  if sma_50 < sma_20 ∧ sma_20 < current_price then (Signal.BUY, 0.6)
  else if sma_20 < sma_50 ∧ current_price < sma_20 then (Signal.SELL, 0.6)
  else (Signal.HOLD, 0.4)

/-- Bollinger-band sub-signal of `analyze_symbol`. -/
def bbSignal (current_price lower_bb upper_bb : ℚ) : Signal × ℚ :=
  if current_price ≤ lower_bb then (Signal.BUY, 0.8)
  else if upper_bb ≤ current_price then (Signal.SELL, 0.8)
  else (Signal.HOLD, 0.5)

/-- MACD sub-signal of `analyze_symbol`. -/
def macdSignal (macd signal_line histogram : ℚ) : Signal × ℚ :=
  if signal_line < macd ∧ 0 < histogram then (Signal.BUY, 0.6)
  else if macd < signal_line ∧ histogram < 0 then (Signal.SELL, 0.6)
  else (Signal.HOLD, 0.4)

/-- The four (sub-signal, confidence weight) pairs of `analyze_symbol`
(lines 155-200 of the source), in source order, computed from the
indicator snapshot of the price series.  The `getD` defaults never fire
for these calls: the lemmas `calculate_rsi_isSome`, `calculate_sma_isSome`
and `calculate_macd_isSome` below show these indicator calls return
`some` on every non-empty series. -/
def subSignalPairs (rsqrt : ℚ → ℚ) (prices : List ℚ) : List (Signal × ℚ) :=
  let current_price := prices.getLastD 0
  let rsi := (calculate_rsi prices 14).getD 0
  let sma_20 := (calculate_sma prices 20).getD 0
  let sma_50 := (calculate_sma prices 50).getD 0
  let bb := calculate_bollinger_bands rsqrt prices 20 2
  let m := (calculate_macd prices 12 26 9).getD (0, 0, 0)
  [rsiSignal rsi,
   maSignal sma_20 sma_50 current_price,
   bbSignal current_price bb.2.2 bb.1,
   macdSignal m.1 m.2.1 m.2.2]

/-- The fusion step of `analyze_symbol` (lines 203-222): count BUY/SELL/
HOLD votes, return the winning signal together with the confidence
`np.mean(confidence_scores) * (winning count / len(signals))`. -/
def fuse (signals : List Signal) (confidence_scores : List ℚ) : Signal × ℚ :=
  let buy_count := signals.count Signal.BUY
  let sell_count := signals.count Signal.SELL
  let hold_count := signals.count Signal.HOLD
  let avg_confidence := qmean confidence_scores
  if sell_count < buy_count ∧ hold_count < buy_count then
    (Signal.BUY, avg_confidence * (buy_count / (signals.length : ℚ)))
  else if buy_count < sell_count ∧ hold_count < sell_count then
    (Signal.SELL, avg_confidence * (sell_count / (signals.length : ℚ)))
  else
    (Signal.HOLD, avg_confidence * (hold_count / (signals.length : ℚ)))

/-- The fused (final signal, confidence) of `analyze_symbol` on a series. -/
def fusedOf (rsqrt : ℚ → ℚ) (prices : List ℚ) : Signal × ℚ :=
  fuse ((subSignalPairs rsqrt prices).map Prod.fst)
    ((subSignalPairs rsqrt prices).map Prod.snd)

/-- One ratio of a reason f-string.  A zero denominator raises
ZeroDivisionError when the operands are Python floats (`pyFloat = true`,
the sub-20-length fallback branch) and prints inf/nan when they are numpy
float64 (`pyFloat = false`); a non-zero denominator gives the ratio. -/
def divToRatio (num denom : ℚ) (pyFloat : Bool) : Except Unit (Option ℚ) :=
  if denom = 0 then
    if pyFloat then Except.error () else Except.ok none
  else Except.ok (some (num / denom))

/-- The reason string of `analyze_symbol` (lines 214, 218, 222), built
from the RSI value, the `current_price / sma_20` ratio and - on the BUY
and SELL branches - the Bollinger position
`(current_price - lower_bb) / (upper_bb - lower_bb)`.  `Except.error ()`
models an uncaught ZeroDivisionError from a Python-float zero
denominator; both denominators are Python floats exactly when the series
is shorter than 20 (the SMA-20 / Bollinger fallback branch). -/
def reasonOf (rsqrt : ℚ → ℚ) (prices : List ℚ) : Except Unit Reason :=
  let current_price := prices.getLastD 0
  let rsi := (calculate_rsi prices 14).getD 0
  let sma_20 := (calculate_sma prices 20).getD 0
  let bb := calculate_bollinger_bands rsqrt prices 20 2
  let isPy := decide (prices.length < 20)
  match divToRatio current_price sma_20 isPy with
  | Except.error u => Except.error u
  | Except.ok pvs =>
    match (fusedOf rsqrt prices).1 with
    | Signal.BUY =>
      match divToRatio (current_price - bb.2.2) (bb.1 - bb.2.2) isPy with
      | Except.error u => Except.error u
      | Except.ok bbp => Except.ok (Reason.buyReason rsi pvs bbp)
    | Signal.SELL =>
      match divToRatio (current_price - bb.2.2) (bb.1 - bb.2.2) isPy with
      | Except.error u => Except.error u
      | Except.ok bbp => Except.ok (Reason.sellReason rsi pvs bbp)
    | Signal.HOLD => Except.ok (Reason.holdReason rsi pvs)

/-- `TradingStrategy.analyze_symbol` on the fetched price series.  A
series of fewer than 5 points returns the insufficient-history HOLD
response (the source's literal reason text is "Insufficient price history
from API"); otherwise the indicators are computed, the four sub-signals
fused, and the target/stop-loss set on BUY (1.15x / 0.95x the current
price) and SELL (0.85x / 1.05x).  `Except.error ()` is an uncaught
ZeroDivisionError from the reason f-string. -/
def analyze_symbol (rsqrt : ℚ → ℚ) (prices : List ℚ) : Except Unit TradingSignal :=
  if prices.length < 5 then
    Except.ok { signal := Signal.HOLD, confidence := 0,
                reason := Reason.insufficientHistory,
                target_price := none, stop_loss := none }
  else
    match reasonOf rsqrt prices with
    | Except.error u => Except.error u
    | Except.ok reason =>
      Except.ok { signal := (fusedOf rsqrt prices).1,
                  confidence := (fusedOf rsqrt prices).2,
                  reason := reason,
                  target_price :=
                    if (fusedOf rsqrt prices).1 = Signal.BUY then
                      some (prices.getLastD 0 * 1.15)
                    else if (fusedOf rsqrt prices).1 = Signal.SELL then
                      some (prices.getLastD 0 * 0.85)
                    else none,
                  stop_loss :=
                    if (fusedOf rsqrt prices).1 = Signal.BUY then
                      some (prices.getLastD 0 * 0.95)
                    else if (fusedOf rsqrt prices).1 = Signal.SELL then
                      some (prices.getLastD 0 * 1.05)
                    else none }

/-- Concrete stand-in for the square-root parameter, used by witnesses on
series shorter than 20 points, where the Bollinger fallback branch never
consults it; the engine-level theorems hold for every `rsqrt`. -/
def zeroSqrt : ℚ → ℚ := fun _ => 0

/-- Concrete five-point witness series used by the engine-level
witnesses below; short enough (< 20) that every indicator takes its
degenerate branch. -/
def pricesW : List ℚ := [1, 2, 3, 4, 5]

/-- The record `analyze_symbol` returns on `pricesW`: the RSI, moving
average and MACD sub-signals vote HOLD, the collapsed Bollinger bands
vote BUY, so HOLD wins 3-1 with confidence (1.9/4)*(3/4) = 57/160. -/
def sigW : TradingSignal :=
  { signal := Signal.HOLD, confidence := 57 / 160,
    reason := Reason.holdReason 50 (some 1),
    target_price := none, stop_loss := none }

/-- Evaluation of the engine on the witness series. -/
lemma analyze_pricesW : analyze_symbol zeroSqrt pricesW = Except.ok sigW := by
  norm_num +decide [pricesW, sigW, analyze_symbol, reasonOf, fusedOf,
    subSignalPairs, fuse, divToRatio, calculate_rsi, calculate_sma,
    calculate_macd, calculate_bollinger_bands, rsiSignal, maSignal, bbSignal,
    macdSignal, qmean, takeLastPy, pyDiff, gainsOf, lossesOf, List.getLastD,
    List.count_cons, zeroSqrt]

/-! ## Supporting lemmas -/

/-- A list of non-negative rationals sums to zero exactly when every
entry is zero. -/
lemma sum_eq_zero_iff_of_nonneg {xs : List ℚ} (h : ∀ x ∈ xs, 0 ≤ x) :
    xs.sum = 0 ↔ ∀ x ∈ xs, x = 0 := by
  induction xs with
  | nil => simp
  | cons a t ih =>
    have ha : 0 ≤ a := h a (List.mem_cons_self a t)
    have ht : ∀ x ∈ t, 0 ≤ x := fun x hx => h x (List.mem_cons_of_mem a hx)
    have hts : 0 ≤ t.sum := List.sum_nonneg ht
    constructor
    · intro h0
      rw [List.sum_cons] at h0
      have ha0 : a = 0 := by linarith
      have hts0 : t.sum = 0 := by linarith
      intro x hx
      rcases List.mem_cons.mp hx with rfl | hx
      · exact ha0
      · exact ((ih ht).mp hts0) x hx
    · intro hall
      rw [List.sum_cons, hall a (List.mem_cons_self a t),
        (ih ht).mpr (fun x hx => hall x (List.mem_cons_of_mem a hx)), add_zero]

/-- Every element of a Python tail slice comes from the original list. -/
lemma takeLastPy_subset (k : ℕ) (xs : List α) : takeLastPy k xs ⊆ xs := by
  unfold takeLastPy
  split
  · exact fun x hx => hx
  · exact List.drop_subset _ xs

/-- A Python tail slice of positive requested length from a long enough
list is non-empty. -/
lemma takeLastPy_ne_nil {k : ℕ} {xs : List α} (hk : 1 ≤ k)
    (hlen : k ≤ xs.length) : takeLastPy k xs ≠ [] := by
  unfold takeLastPy
  rw [if_neg (by omega)]
  intro h
  have hlen2 := congrArg List.length h
  rw [List.length_drop, List.length_nil] at hlen2
  omega

/-- The length of a Python tail slice of positive requested length. -/
lemma takeLastPy_length {k : ℕ} {xs : List α} (hk : 1 ≤ k)
    (hlen : k ≤ xs.length) : (takeLastPy k xs).length = k := by
  unfold takeLastPy
  rw [if_neg (by omega), List.length_drop]
  omega

/-- Entries of the losses array are non-negative. -/
lemma lossesOf_nonneg (prices : List ℚ) : ∀ x ∈ lossesOf prices, 0 ≤ x := by
  intro x hx
  rcases List.mem_map.mp hx with ⟨d, _, rfl⟩
  split <;> linarith

/-- Entries of the gains array are non-negative. -/
lemma gainsOf_nonneg (prices : List ℚ) : ∀ x ∈ gainsOf prices, 0 ≤ x := by
  intro x hx
  rcases List.mem_map.mp hx with ⟨d, _, rfl⟩
  split <;> linarith

/-- The mean of a list of non-negative rationals is non-negative. -/
lemma qmean_nonneg {xs : List ℚ} (h : ∀ x ∈ xs, 0 ≤ x) : 0 ≤ qmean xs :=
  div_nonneg (List.sum_nonneg h) (Nat.cast_nonneg _)

/-- The mean of a non-empty list of non-negative rationals is zero
exactly when every entry is zero. -/
lemma qmean_eq_zero_iff {xs : List ℚ} (h : ∀ x ∈ xs, 0 ≤ x)
    (hne : xs ≠ []) : qmean xs = 0 ↔ ∀ x ∈ xs, x = 0 := by
  have hlen : (xs.length : ℚ) ≠ 0 := by
    simp [List.length_eq_zero, hne]
  unfold qmean
  rw [div_eq_zero_iff]
  simp only [hlen, or_false]
  exact sum_eq_zero_iff_of_nonneg h

/-- The lengths of the numpy diff / gains / losses arrays. -/
lemma lossesOf_length (prices : List ℚ) :
    (lossesOf prices).length = prices.length - 1 := by
  simp [lossesOf, pyDiff, List.length_zipWith]

/-- `calculate_sma` returns a value on every non-empty series. -/
lemma calculate_sma_isSome (prices : List ℚ) (period : ℕ)
    (h : prices ≠ []) : (calculate_sma prices period).isSome := by
  unfold calculate_sma
  split
  · rfl
  · rw [if_neg (by simp [h])]
    rfl

/-- `calculate_ema` returns a value on every non-empty series. -/
lemma calculate_ema_isSome (prices : List ℚ) (period : ℕ)
    (h : prices ≠ []) : (calculate_ema prices period).isSome := by
  unfold calculate_ema
  split
  · rfl
  · match prices, h with
    | p :: rest, _ => rfl

/-- `calculate_rsi` returns a value whenever the period is positive. -/
lemma calculate_rsi_isSome (prices : List ℚ) (period : ℕ)
    (hp : 1 ≤ period) : (calculate_rsi prices period).isSome := by
  unfold calculate_rsi
  split
  · rfl
  · rename_i hlen
    have hlt : period ≤ (lossesOf prices).length := by
      rw [lossesOf_length]; omega
    rw [if_neg (by simp [List.isEmpty_iff, takeLastPy_ne_nil hp hlt])]
    by_cases h0 : qmean (takeLastPy period (lossesOf prices)) = 0 <;> simp [h0]

/-- `calculate_macd` returns a value on every non-empty series. -/
lemma calculate_macd_isSome (prices : List ℚ) (f s g : ℕ)
    (h : prices ≠ []) : (calculate_macd prices f s g).isSome := by
  unfold calculate_macd
  split
  · rfl
  · rcases Option.isSome_iff_exists.mp (calculate_ema_isSome prices f h) with ⟨vf, hvf⟩
    rcases Option.isSome_iff_exists.mp (calculate_ema_isSome prices s h) with ⟨vs, hvs⟩
    rw [hvf, hvs]
    rfl

/-- BUY, SELL and HOLD votes account for every element of a signal list. -/
lemma count_signals_sum (l : List Signal) :
    l.count Signal.BUY + l.count Signal.SELL + l.count Signal.HOLD = l.length := by
  induction l with
  | nil => simp
  | cons hd tl ih =>
    cases hd <;> simp [List.count_cons] <;> omega

/-- Characterization of the fusion step: the winner requires a strictly
larger vote count than both rivals (BUY checked first, then SELL, else
HOLD), and the confidence is the mean weight times the winner's vote
share. -/
lemma fuse_spec (signals : List Signal) (scores : List ℚ) :
    ((fuse signals scores).1 = Signal.BUY ↔
      signals.count Signal.SELL < signals.count Signal.BUY ∧
      signals.count Signal.HOLD < signals.count Signal.BUY) ∧
    ((fuse signals scores).1 = Signal.SELL ↔
      signals.count Signal.BUY < signals.count Signal.SELL ∧
      signals.count Signal.HOLD < signals.count Signal.SELL) ∧
    ((fuse signals scores).1 = Signal.HOLD ↔
      ¬(signals.count Signal.SELL < signals.count Signal.BUY ∧
        signals.count Signal.HOLD < signals.count Signal.BUY) ∧
      ¬(signals.count Signal.BUY < signals.count Signal.SELL ∧
        signals.count Signal.HOLD < signals.count Signal.SELL)) ∧
    (fuse signals scores).2 =
      qmean scores *
        ((signals.count (fuse signals scores).1 : ℚ) / (signals.length : ℚ)) := by
  simp only [fuse]
  by_cases h1 : signals.count Signal.SELL < signals.count Signal.BUY ∧
      signals.count Signal.HOLD < signals.count Signal.BUY
  · rw [if_pos h1]
    exact ⟨iff_of_true rfl h1, iff_of_false (by simp) (by omega),
      iff_of_false (by simp) (by tauto), rfl⟩
  · by_cases h2 : signals.count Signal.BUY < signals.count Signal.SELL ∧
        signals.count Signal.HOLD < signals.count Signal.SELL
    · rw [if_neg h1, if_pos h2]
      exact ⟨iff_of_false (by simp) (by omega), iff_of_true rfl h2,
        iff_of_false (by simp) (by tauto), rfl⟩
    · rw [if_neg h1, if_neg h2]
      exact ⟨iff_of_false (by simp) h1, iff_of_false (by simp) h2,
        iff_of_true rfl ⟨h1, h2⟩, rfl⟩

/-- The RSI sub-signal weight lies between 0.3 and 0.7. -/
lemma rsiSignal_snd_bounds (r : ℚ) :
    3 / 10 ≤ (rsiSignal r).2 ∧ (rsiSignal r).2 ≤ 7 / 10 := by
  unfold rsiSignal
  split_ifs <;> norm_num

/-- The moving-average sub-signal weight lies between 0.4 and 0.6. -/
lemma maSignal_snd_bounds (a b c : ℚ) :
    2 / 5 ≤ (maSignal a b c).2 ∧ (maSignal a b c).2 ≤ 3 / 5 := by
  unfold maSignal
  split_ifs <;> norm_num

/-- The Bollinger sub-signal weight lies between 0.5 and 0.8. -/
lemma bbSignal_snd_bounds (a b c : ℚ) :
    1 / 2 ≤ (bbSignal a b c).2 ∧ (bbSignal a b c).2 ≤ 4 / 5 := by
  unfold bbSignal
  split_ifs <;> norm_num

/-- The MACD sub-signal weight lies between 0.4 and 0.6. -/
lemma macdSignal_snd_bounds (a b c : ℚ) :
    2 / 5 ≤ (macdSignal a b c).2 ∧ (macdSignal a b c).2 ≤ 3 / 5 := by
  unfold macdSignal
  split_ifs <;> norm_num

/-- Mean of a four-element list. -/
lemma qmean_four (a b c d : ℚ) : qmean [a, b, c, d] = (a + b + c + d) / 4 := by
  simp [qmean]
  ring

/-- The engine always derives exactly four sub-signals. -/
lemma subSignalPairs_length (rsqrt : ℚ → ℚ) (prices : List ℚ) :
    (subSignalPairs rsqrt prices).length = 4 := by
  simp [subSignalPairs]

/-- The four sub-signal weights, in source order. -/
lemma subSignalPairs_map_snd (rsqrt : ℚ → ℚ) (prices : List ℚ) :
    (subSignalPairs rsqrt prices).map Prod.snd =
      [(rsiSignal ((calculate_rsi prices 14).getD 0)).2,
       (maSignal ((calculate_sma prices 20).getD 0) ((calculate_sma prices 50).getD 0)
         (prices.getLastD 0)).2,
       (bbSignal (prices.getLastD 0) (calculate_bollinger_bands rsqrt prices 20 2).2.2
         (calculate_bollinger_bands rsqrt prices 20 2).1).2,
       (macdSignal ((calculate_macd prices 12 26 9).getD (0, 0, 0)).1
         ((calculate_macd prices 12 26 9).getD (0, 0, 0)).2.1
         ((calculate_macd prices 12 26 9).getD (0, 0, 0)).2.2).2] := by
  simp [subSignalPairs]

/-- A reason produced on the main path is never the insufficient-history
marker. -/
lemma reasonOf_ok_shape (rsqrt : ℚ → ℚ) (prices : List ℚ) (r : Reason)
    (h : reasonOf rsqrt prices = Except.ok r) :
    r ≠ Reason.insufficientHistory := by
  simp only [reasonOf] at h
  repeat' split at h
  all_goals try exact Except.noConfusion h
  all_goals injection h with h2
  all_goals rw [← h2]
  all_goals simp

/-- Inversion for a successful `analyze_symbol` run: the returned record
carries the fused signal and confidence, the target/stop-loss of the
final branch, and a computed (non-degenerate) reason. -/
lemma analyze_ok_fields (rsqrt : ℚ → ℚ) (prices : List ℚ) (sig : TradingSignal)
    (h5 : 5 ≤ prices.length) (hok : analyze_symbol rsqrt prices = Except.ok sig) :
    sig.signal = (fusedOf rsqrt prices).1 ∧
    sig.confidence = (fusedOf rsqrt prices).2 ∧
    sig.target_price = (if (fusedOf rsqrt prices).1 = Signal.BUY then
        some (prices.getLastD 0 * 1.15)
      else if (fusedOf rsqrt prices).1 = Signal.SELL then
        some (prices.getLastD 0 * 0.85)
      else none) ∧
    sig.stop_loss = (if (fusedOf rsqrt prices).1 = Signal.BUY then
        some (prices.getLastD 0 * 0.95)
      else if (fusedOf rsqrt prices).1 = Signal.SELL then
        some (prices.getLastD 0 * 1.05)
      else none) ∧
    sig.reason ≠ Reason.insufficientHistory := by
  unfold analyze_symbol at hok
  rw [if_neg (by omega)] at hok
  cases hr : reasonOf rsqrt prices with
  | error u =>
    rw [hr] at hok
    exact Except.noConfusion hok
  | ok r =>
    rw [hr] at hok
    injection hok with h2
    refine ⟨by rw [← h2], by rw [← h2], by rw [← h2], by rw [← h2], ?_⟩
    rw [← h2]
    exact reasonOf_ok_shape rsqrt prices r hr

/-! ## Claim theorems -/

/-- Claim C3: on every price series of fewer than 5 points the engine
immediately returns the HOLD / confidence-0 / insufficient-history
record, regardless of the price values; and this short-series check is
the only early exit - no run over a series of length at least 5 can
produce the insufficient-history reason. -/
theorem C3_short_series_early_exit (rsqrt : ℚ → ℚ) (prices : List ℚ) :
    (prices.length < 5 → analyze_symbol rsqrt prices =
      Except.ok { signal := Signal.HOLD, confidence := 0,
                  reason := Reason.insufficientHistory,
                  target_price := none, stop_loss := none }) ∧
    (5 ≤ prices.length → ∀ sig : TradingSignal,
      analyze_symbol rsqrt prices = Except.ok sig →
      sig.reason ≠ Reason.insufficientHistory) := by
  constructor
  · intro h
    unfold analyze_symbol
    rw [if_pos h]
  · intro h5 sig hok
    exact (analyze_ok_fields rsqrt prices sig h5 hok).2.2.2.2

/-- Witness for C3 at the concrete series [1, 2, 3] (early exit) and the
five-point series `pricesW` (main path, computed reason). -/
theorem C3_short_series_early_exit_witness :
    analyze_symbol zeroSqrt [1, 2, 3] =
      Except.ok { signal := Signal.HOLD, confidence := 0,
                  reason := Reason.insufficientHistory,
                  target_price := none, stop_loss := none } ∧
    sigW.reason ≠ Reason.insufficientHistory :=
  ⟨(C3_short_series_early_exit zeroSqrt [1, 2, 3]).1 (by norm_num),
   (C3_short_series_early_exit zeroSqrt pricesW).2 (by norm_num [pricesW])
     sigW analyze_pricesW⟩

/-- Claim C2: on every successful run over a series of length at least 5,
the final signal is BUY exactly when the BUY vote count strictly exceeds
both the SELL and the HOLD counts, symmetrically for SELL, and HOLD in
every other case; the confidence is the mean of the four weights times
the winning count over 4; and on the sub-signal lists
[BUY, BUY, SELL, HOLD] and [BUY, SELL, HOLD, HOLD] the fusion rule gives
BUY and HOLD respectively. -/
theorem C2_fusion_rule (rsqrt : ℚ → ℚ) (prices : List ℚ) (sig : TradingSignal)
    (h5 : 5 ≤ prices.length) (hok : analyze_symbol rsqrt prices = Except.ok sig) :
    (sig.signal = Signal.BUY ↔
      ((subSignalPairs rsqrt prices).map Prod.fst).count Signal.SELL <
        ((subSignalPairs rsqrt prices).map Prod.fst).count Signal.BUY ∧
      ((subSignalPairs rsqrt prices).map Prod.fst).count Signal.HOLD <
        ((subSignalPairs rsqrt prices).map Prod.fst).count Signal.BUY) ∧
    (sig.signal = Signal.SELL ↔
      ((subSignalPairs rsqrt prices).map Prod.fst).count Signal.BUY <
        ((subSignalPairs rsqrt prices).map Prod.fst).count Signal.SELL ∧
      ((subSignalPairs rsqrt prices).map Prod.fst).count Signal.HOLD <
        ((subSignalPairs rsqrt prices).map Prod.fst).count Signal.SELL) ∧
    (sig.signal = Signal.HOLD ↔
      ¬(((subSignalPairs rsqrt prices).map Prod.fst).count Signal.SELL <
          ((subSignalPairs rsqrt prices).map Prod.fst).count Signal.BUY ∧
        ((subSignalPairs rsqrt prices).map Prod.fst).count Signal.HOLD <
          ((subSignalPairs rsqrt prices).map Prod.fst).count Signal.BUY) ∧
      ¬(((subSignalPairs rsqrt prices).map Prod.fst).count Signal.BUY <
          ((subSignalPairs rsqrt prices).map Prod.fst).count Signal.SELL ∧
        ((subSignalPairs rsqrt prices).map Prod.fst).count Signal.HOLD <
          ((subSignalPairs rsqrt prices).map Prod.fst).count Signal.SELL)) ∧
    sig.confidence = qmean ((subSignalPairs rsqrt prices).map Prod.snd) *
      ((((subSignalPairs rsqrt prices).map Prod.fst).count sig.signal : ℚ) / 4) ∧
    (∀ scores : List ℚ,
      (fuse [Signal.BUY, Signal.BUY, Signal.SELL, Signal.HOLD] scores).1 =
        Signal.BUY) ∧
    (∀ scores : List ℚ,
      (fuse [Signal.BUY, Signal.SELL, Signal.HOLD, Signal.HOLD] scores).1 =
        Signal.HOLD) := by
  obtain ⟨hsg, hcf, -, -, -⟩ := analyze_ok_fields rsqrt prices sig h5 hok
  have hfs := fuse_spec ((subSignalPairs rsqrt prices).map Prod.fst)
    ((subSignalPairs rsqrt prices).map Prod.snd)
  have hsg2 : sig.signal = (fuse ((subSignalPairs rsqrt prices).map Prod.fst)
      ((subSignalPairs rsqrt prices).map Prod.snd)).1 := hsg
  have hcf2 : sig.confidence = (fuse ((subSignalPairs rsqrt prices).map Prod.fst)
      ((subSignalPairs rsqrt prices).map Prod.snd)).2 := hcf
  have hlen : ((((subSignalPairs rsqrt prices).map Prod.fst).length : ℕ) : ℚ) = 4 := by
    rw [List.length_map, subSignalPairs_length]
    norm_num
  refine ⟨?_, ?_, ?_, ?_, ?_, ?_⟩
  · rw [hsg2]
    exact hfs.1
  · rw [hsg2]
    exact hfs.2.1
  · rw [hsg2]
    exact hfs.2.2.1
  · rw [hcf2, hfs.2.2.2, hlen, ← hsg2]
  · intro scores
    exact (fuse_spec _ scores).1.mpr (by decide)
  · intro scores
    exact (fuse_spec _ scores).2.2.1.mpr (by decide)

/-- Witness for C2 on the five-point series `pricesW`. -/
theorem C2_fusion_rule_witness :
    5 ≤ pricesW.length ∧
    (fuse [Signal.BUY, Signal.BUY, Signal.SELL, Signal.HOLD] [] ).1 = Signal.BUY ∧
    (fuse [Signal.BUY, Signal.SELL, Signal.HOLD, Signal.HOLD] [] ).1 = Signal.HOLD :=
  ⟨by norm_num [pricesW],
   (C2_fusion_rule zeroSqrt pricesW sigW (by norm_num [pricesW])
     analyze_pricesW).2.2.2.2.1 [],
   (C2_fusion_rule zeroSqrt pricesW sigW (by norm_num [pricesW])
     analyze_pricesW).2.2.2.2.2 []⟩

/-- Claim C6: on every successful run, a BUY result carries exactly
target 1.15x and stop-loss 0.95x the last price, a SELL result 0.85x and
1.05x, and a HOLD result has no target and no stop-loss. -/
theorem C6_target_stop_loss (rsqrt : ℚ → ℚ) (prices : List ℚ)
    (sig : TradingSignal) (h5 : 5 ≤ prices.length)
    (hok : analyze_symbol rsqrt prices = Except.ok sig) :
    (sig.signal = Signal.BUY →
      sig.target_price = some (prices.getLastD 0 * 1.15) ∧
      sig.stop_loss = some (prices.getLastD 0 * 0.95)) ∧
    (sig.signal = Signal.SELL →
      sig.target_price = some (prices.getLastD 0 * 0.85) ∧
      sig.stop_loss = some (prices.getLastD 0 * 1.05)) ∧
    (sig.signal = Signal.HOLD →
      sig.target_price = none ∧ sig.stop_loss = none) := by
  obtain ⟨hsg, -, htp, hsl, -⟩ := analyze_ok_fields rsqrt prices sig h5 hok
  refine ⟨?_, ?_, ?_⟩ <;> intro hS <;> rw [hsg] at hS <;> rw [htp, hsl, hS] <;> simp

/-- Witness for C6 on the five-point series `pricesW`, whose run returns
HOLD with no target and no stop-loss. -/
theorem C6_target_stop_loss_witness :
    sigW.target_price = none ∧ sigW.stop_loss = none :=
  (C6_target_stop_loss zeroSqrt pricesW sigW (by norm_num [pricesW])
    analyze_pricesW).2.2 rfl

/-- Claim C10: on every successful run over a series of length at least
5, the confidence lies in [0, 0.675] (mean weight at most
(0.7+0.6+0.8+0.6)/4 = 0.675, vote share at most 1), and it is exactly 0
only when HOLD wins with zero HOLD votes, i.e. on a 2-2 BUY/SELL tie. -/
theorem C10_confidence_bounds (rsqrt : ℚ → ℚ) (prices : List ℚ)
    (sig : TradingSignal) (h5 : 5 ≤ prices.length)
    (hok : analyze_symbol rsqrt prices = Except.ok sig) :
    0 ≤ sig.confidence ∧ sig.confidence ≤ 0.675 ∧
    (sig.confidence = 0 →
      sig.signal = Signal.HOLD ∧
      ((subSignalPairs rsqrt prices).map Prod.fst).count Signal.HOLD = 0 ∧
      ((subSignalPairs rsqrt prices).map Prod.fst).count Signal.BUY = 2 ∧
      ((subSignalPairs rsqrt prices).map Prod.fst).count Signal.SELL = 2) := by
  obtain ⟨hsg, hcf, -, -, -⟩ := analyze_ok_fields rsqrt prices sig h5 hok
  have hfs := fuse_spec ((subSignalPairs rsqrt prices).map Prod.fst)
    ((subSignalPairs rsqrt prices).map Prod.snd)
  have hsg2 : sig.signal = (fuse ((subSignalPairs rsqrt prices).map Prod.fst)
      ((subSignalPairs rsqrt prices).map Prod.snd)).1 := hsg
  have hcf2 : sig.confidence = (fuse ((subSignalPairs rsqrt prices).map Prod.fst)
      ((subSignalPairs rsqrt prices).map Prod.snd)).2 := hcf
  have hlen : ((((subSignalPairs rsqrt prices).map Prod.fst).length : ℕ) : ℚ) = 4 := by
    rw [List.length_map, subSignalPairs_length]
    norm_num
  have hwin : sig.confidence =
      qmean ((subSignalPairs rsqrt prices).map Prod.snd) *
        ((((subSignalPairs rsqrt prices).map Prod.fst).count sig.signal : ℚ) / 4) := by
    rw [hcf2, hfs.2.2.2, hlen, ← hsg2]
  have hq : qmean ((subSignalPairs rsqrt prices).map Prod.snd) =
      ((rsiSignal ((calculate_rsi prices 14).getD 0)).2 +
       (maSignal ((calculate_sma prices 20).getD 0) ((calculate_sma prices 50).getD 0)
         (prices.getLastD 0)).2 +
       (bbSignal (prices.getLastD 0) (calculate_bollinger_bands rsqrt prices 20 2).2.2
         (calculate_bollinger_bands rsqrt prices 20 2).1).2 +
       (macdSignal ((calculate_macd prices 12 26 9).getD (0, 0, 0)).1
         ((calculate_macd prices 12 26 9).getD (0, 0, 0)).2.1
         ((calculate_macd prices 12 26 9).getD (0, 0, 0)).2.2).2) / 4 := by
    rw [subSignalPairs_map_snd, qmean_four]
  obtain ⟨h1a, h1b⟩ := rsiSignal_snd_bounds ((calculate_rsi prices 14).getD 0)
  obtain ⟨h2a, h2b⟩ := maSignal_snd_bounds ((calculate_sma prices 20).getD 0)
    ((calculate_sma prices 50).getD 0) (prices.getLastD 0)
  obtain ⟨h3a, h3b⟩ := bbSignal_snd_bounds (prices.getLastD 0)
    (calculate_bollinger_bands rsqrt prices 20 2).2.2
    (calculate_bollinger_bands rsqrt prices 20 2).1
  obtain ⟨h4a, h4b⟩ := macdSignal_snd_bounds
    ((calculate_macd prices 12 26 9).getD (0, 0, 0)).1
    ((calculate_macd prices 12 26 9).getD (0, 0, 0)).2.1
    ((calculate_macd prices 12 26 9).getD (0, 0, 0)).2.2
  have havg_lb : 2 / 5 ≤ qmean ((subSignalPairs rsqrt prices).map Prod.snd) := by
    rw [hq]
    linarith
  have havg_ub : qmean ((subSignalPairs rsqrt prices).map Prod.snd) ≤ 27 / 40 := by
    rw [hq]
    linarith
  have hcnt_le : ((subSignalPairs rsqrt prices).map Prod.fst).count sig.signal ≤ 4 :=
    (List.count_le_length _ _).trans
      (le_of_eq (by rw [List.length_map, subSignalPairs_length]))
  have hcnt4 : ((((subSignalPairs rsqrt prices).map Prod.fst).count sig.signal : ℕ) : ℚ) ≤ 4 := by
    exact_mod_cast hcnt_le
  have hcnt0 : (0 : ℚ) ≤
      ((((subSignalPairs rsqrt prices).map Prod.fst).count sig.signal : ℕ) : ℚ) :=
    Nat.cast_nonneg _
  refine ⟨?_, ?_, ?_⟩
  · rw [hwin]
    have : (0:ℚ) ≤ qmean ((subSignalPairs rsqrt prices).map Prod.snd) := by linarith
    positivity
  · rw [hwin]
    have hdiv1 : ((((subSignalPairs rsqrt prices).map Prod.fst).count sig.signal : ℕ) : ℚ) / 4 ≤ 1 := by
      linarith
    have hdiv0 : (0:ℚ) ≤
        ((((subSignalPairs rsqrt prices).map Prod.fst).count sig.signal : ℕ) : ℚ) / 4 := by
      linarith
    calc qmean ((subSignalPairs rsqrt prices).map Prod.snd) *
          ((((subSignalPairs rsqrt prices).map Prod.fst).count sig.signal : ℕ) / 4 : ℚ)
        ≤ (27 / 40) * ((((subSignalPairs rsqrt prices).map Prod.fst).count sig.signal : ℕ) / 4 : ℚ) :=
          mul_le_mul_of_nonneg_right havg_ub hdiv0
      _ ≤ (27 / 40) * 1 := mul_le_mul_of_nonneg_left hdiv1 (by norm_num)
      _ = 0.675 := by norm_num
  · intro h0
    rw [hwin] at h0
    have hqpos : 0 < qmean ((subSignalPairs rsqrt prices).map Prod.snd) := by linarith
    have hc0 : ((subSignalPairs rsqrt prices).map Prod.fst).count sig.signal = 0 := by
      rcases mul_eq_zero.mp h0 with h | h
      · linarith
      · have := (div_eq_zero_iff.mp h).resolve_right (by norm_num)
        exact_mod_cast this
    have hsigH : sig.signal = Signal.HOLD := by
      cases hsig : sig.signal with
      | BUY =>
        exfalso
        have hfB : (fuse ((subSignalPairs rsqrt prices).map Prod.fst)
            ((subSignalPairs rsqrt prices).map Prod.snd)).1 = Signal.BUY := by
          rw [← hsg2, hsig]
        have hcond := hfs.1.mp hfB
        rw [hsig] at hc0
        omega
      | SELL =>
        exfalso
        have hfS : (fuse ((subSignalPairs rsqrt prices).map Prod.fst)
            ((subSignalPairs rsqrt prices).map Prod.snd)).1 = Signal.SELL := by
          rw [← hsg2, hsig]
        have hcond := hfs.2.1.mp hfS
        rw [hsig] at hc0
        omega
      | HOLD => rfl
    rw [hsigH] at hc0
    have hfH : (fuse ((subSignalPairs rsqrt prices).map Prod.fst)
        ((subSignalPairs rsqrt prices).map Prod.snd)).1 = Signal.HOLD := by
      rw [← hsg2, hsigH]
    have hH := hfs.2.2.1.mp hfH
    have hsum := count_signals_sum ((subSignalPairs rsqrt prices).map Prod.fst)
    rw [List.length_map, subSignalPairs_length] at hsum
    refine ⟨hsigH, hc0, ?_, ?_⟩ <;> omega

/-- Witness for C10 on the five-point series `pricesW`, whose run has
confidence 57/160. -/
theorem C10_confidence_bounds_witness :
    0 ≤ sigW.confidence ∧ sigW.confidence ≤ 0.675 :=
  ⟨(C10_confidence_bounds zeroSqrt pricesW sigW (by norm_num [pricesW])
      analyze_pricesW).1,
   (C10_confidence_bounds zeroSqrt pricesW sigW (by norm_num [pricesW])
      analyze_pricesW).2.1⟩

/-- Claim C4: RSI returns 50 on any series with fewer than period+1
points; otherwise its value lies in [0, 100], equals 100 exactly when
every loss in the last `period` differences is zero, and otherwise
equals 100 - 100/(1 + avg_gain/avg_loss) over the last `period` gains
and losses.  Stated for every positive period (the source default is
14). -/
theorem C4_rsi_range (prices : List ℚ) (period : ℕ) (hp : 1 ≤ period) :
    (prices.length < period + 1 → calculate_rsi prices period = some 50) ∧
    (period + 1 ≤ prices.length →
      ∃ r, calculate_rsi prices period = some r ∧ 0 ≤ r ∧ r ≤ 100 ∧
        (r = 100 ↔ ∀ x ∈ takeLastPy period (lossesOf prices), x = 0) ∧
        ((¬ ∀ x ∈ takeLastPy period (lossesOf prices), x = 0) →
          r = 100 - 100 / (1 + qmean (takeLastPy period (gainsOf prices)) /
            qmean (takeLastPy period (lossesOf prices))))) := by
  constructor
  · intro h
    unfold calculate_rsi
    rw [if_pos h]
  · intro hlen
    have hnot : ¬ prices.length < period + 1 := by omega
    have hllen : period ≤ (lossesOf prices).length := by
      rw [lossesOf_length]
      omega
    have hlne : takeLastPy period (lossesOf prices) ≠ [] := takeLastPy_ne_nil hp hllen
    have hlnonneg : ∀ x ∈ takeLastPy period (lossesOf prices), 0 ≤ x :=
      fun x hx => lossesOf_nonneg prices x (takeLastPy_subset _ _ hx)
    have hgnonneg : ∀ x ∈ takeLastPy period (gainsOf prices), 0 ≤ x :=
      fun x hx => gainsOf_nonneg prices x (takeLastPy_subset _ _ hx)
    have hmean0 := qmean_eq_zero_iff hlnonneg hlne
    have hlmean := qmean_nonneg hlnonneg
    have hgmean := qmean_nonneg hgnonneg
    simp only [calculate_rsi]
    rw [if_neg hnot, if_neg (by simp [List.isEmpty_iff, hlne])]
    by_cases h0 : qmean (takeLastPy period (lossesOf prices)) = 0
    · rw [if_pos h0]
      exact ⟨100, rfl, by norm_num, le_refl _,
        iff_of_true rfl (hmean0.mp h0), fun hcon => absurd (hmean0.mp h0) hcon⟩
    · rw [if_neg h0]
      have hlpos : 0 < qmean (takeLastPy period (lossesOf prices)) :=
        lt_of_le_of_ne hlmean (Ne.symm h0)
      have hrs : 0 ≤ qmean (takeLastPy period (gainsOf prices)) /
          qmean (takeLastPy period (lossesOf prices)) := div_nonneg hgmean hlmean
      have h1rs : (0 : ℚ) < 1 + qmean (takeLastPy period (gainsOf prices)) /
          qmean (takeLastPy period (lossesOf prices)) := by linarith
      have hfrac_pos : 0 < 100 / (1 + qmean (takeLastPy period (gainsOf prices)) /
          qmean (takeLastPy period (lossesOf prices))) := by positivity
      have hfrac_le : 100 / (1 + qmean (takeLastPy period (gainsOf prices)) /
          qmean (takeLastPy period (lossesOf prices))) ≤ 100 := by
        rw [div_le_iff₀ h1rs]
        nlinarith [hrs]
      refine ⟨_, rfl, by linarith, by linarith, ?_, fun _ => rfl⟩
      exact iff_of_false (by linarith) (fun hall => h0 (hmean0.mpr hall))

/-- Witness for C4 at period 14 on the three-point series [1, 2, 3]. -/
theorem C4_rsi_range_witness :
    (1 ≤ 14) ∧ ([1, 2, 3] : List ℚ).length < 14 + 1 ∧
    calculate_rsi [1, 2, 3] 14 = some 50 :=
  ⟨by norm_num, by norm_num,
   (C4_rsi_range [1, 2, 3] 14 (by norm_num)).1 (by norm_num)⟩

/-- Claim C5: MACD(12, 26, 9) returns exactly (0, 0, 0) on any series
with fewer than 26 points; with at least 26 points the MACD line is
EMA(12) - EMA(26) over the whole series, the signal line equals the MACD
line when the series has fewer than 35 points and 0.9 times it
otherwise, and the histogram is MACD minus signal. -/
theorem C5_macd_shape (prices : List ℚ) :
    (prices.length < 26 → calculate_macd prices 12 26 9 = some (0, 0, 0)) ∧
    (26 ≤ prices.length →
      ∃ ef es, calculate_ema prices 12 = some ef ∧
        calculate_ema prices 26 = some es ∧
        calculate_macd prices 12 26 9 =
          some (ef - es,
            if prices.length < 35 then ef - es else (ef - es) * 0.9,
            (ef - es) - if prices.length < 35 then ef - es else (ef - es) * 0.9)) := by
  constructor
  · intro h
    unfold calculate_macd
    rw [if_pos h]
  · intro h26
    have hne : prices ≠ [] := by
      intro h
      rw [h] at h26
      simp at h26
    rcases Option.isSome_iff_exists.mp (calculate_ema_isSome prices 12 hne) with ⟨ef, hef⟩
    rcases Option.isSome_iff_exists.mp (calculate_ema_isSome prices 26 hne) with ⟨es, hes⟩
    refine ⟨ef, es, hef, hes, ?_⟩
    simp only [calculate_macd]
    rw [if_neg (by omega), hef, hes]

/-- Witness for C5 on the three-point series [1, 2, 3]. -/
theorem C5_macd_shape_witness :
    ([1, 2, 3] : List ℚ).length < 26 ∧
    calculate_macd [1, 2, 3] 12 26 9 = some (0, 0, 0) :=
  ⟨by norm_num, (C5_macd_shape [1, 2, 3]).1 (by norm_num)⟩

/-- Claim C7: for a positive period, a series of at least `period`
points and a non-negative deviation multiplier, the Bollinger middle
band is the mean of the last `period` points, the upper/lower bands are
middle plus/minus the multiplier times the population standard
deviation, and upper >= middle >= lower (exact real square root). -/
theorem C7_bollinger_ordered (prices : List ℝ) (period : ℕ) (std_dev : ℝ)
    (_hp : 1 ≤ period) (hlen : period ≤ prices.length) (hsd : 0 ≤ std_dev) :
    calculate_bollinger_bandsR prices period std_dev =
      (rmean (takeLastPy period prices) + np_stdR (takeLastPy period prices) * std_dev,
       rmean (takeLastPy period prices),
       rmean (takeLastPy period prices) - np_stdR (takeLastPy period prices) * std_dev) ∧
    (calculate_bollinger_bandsR prices period std_dev).2.2 ≤
      (calculate_bollinger_bandsR prices period std_dev).2.1 ∧
    (calculate_bollinger_bandsR prices period std_dev).2.1 ≤
      (calculate_bollinger_bandsR prices period std_dev).1 := by
  have heq : calculate_bollinger_bandsR prices period std_dev =
      (rmean (takeLastPy period prices) + np_stdR (takeLastPy period prices) * std_dev,
       rmean (takeLastPy period prices),
       rmean (takeLastPy period prices) - np_stdR (takeLastPy period prices) * std_dev) := by
    simp only [calculate_bollinger_bandsR]
    rw [if_neg (by omega)]
  have hstd : 0 ≤ np_stdR (takeLastPy period prices) := by
    unfold np_stdR
    exact Real.sqrt_nonneg _
  have hmul : 0 ≤ np_stdR (takeLastPy period prices) * std_dev := mul_nonneg hstd hsd
  rw [heq]
  exact ⟨rfl, by dsimp only; linarith, by dsimp only; linarith⟩

/-- Witness for C7 on a constant 20-point series with the default
multiplier 2. -/
theorem C7_bollinger_ordered_witness :
    (1 ≤ 20) ∧ 20 ≤ (List.replicate 20 (1 : ℝ)).length ∧ ((0 : ℝ) ≤ 2) ∧
    (calculate_bollinger_bandsR (List.replicate 20 (1 : ℝ)) 20 2).2.2 ≤
      (calculate_bollinger_bandsR (List.replicate 20 (1 : ℝ)) 20 2).2.1 :=
  ⟨by norm_num, by simp, by norm_num,
   (C7_bollinger_ordered (List.replicate 20 (1 : ℝ)) 20 2 (by norm_num) (by simp)
     (by norm_num)).2.1⟩

/-- Claim C8 counterexample: at period 0 on the empty series, SMA is the
NaN of `np.mean` over an empty slice - not 0 - and EMA raises IndexError
on `prices[0]` instead of returning 0 (both modelled as `none`), so the
claim's universal quantification over every period fails at period 0. -/
theorem C8_period_zero_counterexample :
    calculate_sma ([] : List ℚ) 0 ≠ some 0 ∧
    calculate_ema ([] : List ℚ) 0 = none := by
  constructor
  · simp [calculate_sma]
  · simp [calculate_ema]

/-- Claim C8 (amended to positive periods): for every period >= 1, SMA
and EMA on a non-empty series with fewer than `period` points both
return the last price, and on the empty series both return 0; neither
hits an error case on these inputs. -/
theorem C8_degenerate_fallbacks (period : ℕ) (hp : 1 ≤ period) :
    (∀ (prices : List ℚ) (hne : prices ≠ []), prices.length < period →
      calculate_sma prices period = some (prices.getLast hne) ∧
      calculate_ema prices period = some (prices.getLast hne)) ∧
    calculate_sma ([] : List ℚ) period = some 0 ∧
    calculate_ema ([] : List ℚ) period = some 0 := by
  have hempty : ([] : List ℚ).length < period := by simpa using hp
  refine ⟨?_, ?_, ?_⟩
  · intro prices hne hlen
    have hlast : prices.getLastD 0 = prices.getLast hne := by
      rw [List.getLastD_eq_getLast?, List.getLast?_eq_getLast prices hne]
      rfl
    constructor
    · unfold calculate_sma
      rw [if_pos hlen, hlast]
    · unfold calculate_ema
      rw [if_pos hlen, hlast]
  · unfold calculate_sma
    rw [if_pos hempty]
    rfl
  · unfold calculate_ema
    rw [if_pos hempty]
    rfl

/-- Witness for C8 at period 50 on [1, 2, 3] and on the empty series. -/
theorem C8_degenerate_fallbacks_witness :
    (1 ≤ 50) ∧ calculate_sma [1, 2, 3] 50 = some 3 ∧
    calculate_ema [1, 2, 3] 50 = some 3 ∧
    calculate_sma ([] : List ℚ) 50 = some 0 ∧
    calculate_ema ([] : List ℚ) 50 = some 0 := by
  have h := C8_degenerate_fallbacks 50 (by norm_num)
  have h2 := h.1 [1, 2, 3] (by simp) (by norm_num)
  have hlast : ([1, 2, 3] : List ℚ).getLast (by simp) = 3 := rfl
  exact ⟨by norm_num, by rw [h2.1, hlast], by rw [h2.2, hlast], h.2.1, h.2.2⟩

/-- Claim C9: on a series of length at least 5 and below the Bollinger
period 20, all three bands collapse to the last price, the current price
is (weakly) at or below the lower band and at or above the upper band,
and the Bollinger sub-signal (third of the four) is a BUY vote at weight
0.8 - so its SELL branch is unreachable for such short series. -/
theorem C9_collapsed_bands (rsqrt : ℚ → ℚ) (prices : List ℚ)
    (_h5 : 5 ≤ prices.length) (h20 : prices.length < 20) :
    calculate_bollinger_bands rsqrt prices 20 2 =
      (prices.getLastD 0, prices.getLastD 0, prices.getLastD 0) ∧
    prices.getLastD 0 ≤ (calculate_bollinger_bands rsqrt prices 20 2).2.2 ∧
    (calculate_bollinger_bands rsqrt prices 20 2).1 ≤ prices.getLastD 0 ∧
    (subSignalPairs rsqrt prices)[2]? = some ((Signal.BUY, 0.8) : Signal × ℚ) := by
  have heq : calculate_bollinger_bands rsqrt prices 20 2 =
      (prices.getLastD 0, prices.getLastD 0, prices.getLastD 0) := by
    unfold calculate_bollinger_bands
    rw [if_pos h20]
  refine ⟨heq, by rw [heq], by rw [heq], ?_⟩
  simp only [subSignalPairs, heq]
  simp [bbSignal]

/-- Witness for C9 on the five-point series `pricesW`. -/
theorem C9_collapsed_bands_witness :
    calculate_bollinger_bands zeroSqrt pricesW 20 2 =
      (pricesW.getLastD 0, pricesW.getLastD 0, pricesW.getLastD 0) ∧
    pricesW.getLastD 0 ≤ (calculate_bollinger_bands zeroSqrt pricesW 20 2).2.2 ∧
    (calculate_bollinger_bands zeroSqrt pricesW 20 2).1 ≤ pricesW.getLastD 0 ∧
    (subSignalPairs zeroSqrt pricesW)[2]? = some ((Signal.BUY, 0.8) : Signal × ℚ) :=
  C9_collapsed_bands zeroSqrt pricesW (by norm_num [pricesW]) (by norm_num [pricesW])

/-- Claim C1 (code bug): on the five-point series [1, 1, 1, 1, 0] the
engine does not return a TradingSignal at all.  The series is shorter
than 20, so SMA-20 falls back to the Python float `prices[-1] = 0.0`,
and the HOLD reason f-string computes `current_price / sma_20 = 0.0/0.0`
- an unguarded ZeroDivisionError, modelled as `Except.error ()`. -/
theorem C1_reason_division_raises :
    analyze_symbol zeroSqrt [1, 1, 1, 1, 0] = Except.error () := by
  norm_num +decide [analyze_symbol, reasonOf, fusedOf, subSignalPairs, fuse,
    divToRatio, calculate_rsi, calculate_sma, calculate_macd,
    calculate_bollinger_bands, rsiSignal, maSignal, bbSignal, macdSignal,
    qmean, takeLastPy, pyDiff, gainsOf, lossesOf, List.getLastD,
    List.count_cons, zeroSqrt]
